import Mathlib

/-!
Verification of the request-orchestration core of `mineru/cli/fast_api.py`
(the `/file_parse` handler `parse_pdf`, with `get_infer_result` and
`encode_image` as helpers).

The embedding is a shallow, purely functional translation of the handler:
the filesystem is an explicit state (`Fs`), the external collaborators
(`read_fn`, `aio_do_parse`, base64 encoding, the accepted suffix lists from
`mineru.cli.common`, and the package version string) are parameters gathered
in `Externals`, and UUID generation is modelled as a counter threaded
through the handler (`u0` is the workspace identifier, `u0 + 1` the
correlation identifier of a 500 response).  Exceptions raised by the engine
or by keyword-argument collisions in the `**config` spread are modelled
with `Except`.
-/

namespace FastApi

/-- Association-list update with Python-dict semantics on lists whose keys
are pairwise distinct: replace the value at the first occurrence of the key,
or append the binding at the end when the key is absent. -/
def setEntry {α : Type} (k : String) (v : α) : List (String × α) → List (String × α)
  | [] => [(k, v)]
  | p :: rest => if p.fst = k then (k, v) :: rest else p :: setEntry k v rest

/-- Association-list lookup: the value at the first occurrence of the key. -/
def lookupKey {α : Type} (k : String) : List (String × α) → Option α
  | [] => none
  | p :: rest => if p.fst = k then some p.snd else lookupKey k rest

/-- Characters after the final slash of a path. -/
def afterLastSlash (cs : List Char) : List Char :=
  cs.foldl (fun acc c => if c = '/' then [] else acc ++ [c]) []

/-- The part of the path after the final slash, as `pathlib.Path(...).name`. -/
def pathName (filename : String) : String :=
  String.mk (afterLastSlash filename.toList)

/-- Lowercasing, as Python `str.lower()` on extension strings. -/
def lowerStr (s : String) : String :=
  String.mk (s.toList.map Char.toLower)

/-- Whether `s` starts with `p`, as Python `str.startswith`. -/
def strStartsWith (s p : String) : Bool :=
  p.toList.isPrefixOf s.toList

/-- Whether `s` ends with `p`, as Python `str.endswith` (used for the
`*.jpg` glob). -/
def strEndsWith (s p : String) : Bool :=
  p.toList.isSuffixOf s.toList

/-- Index of the last dot in a list of characters, if any. -/
def lastDotIdx (cs : List Char) : Option Nat :=
  match cs.reverse.findIdx? (· == '.') with
  | some j => some (cs.length - 1 - j)
  | none => none

/-- The extension of a file name, as `pathlib.Path(...).suffix`: the segment
from the last dot on, provided that dot is neither the first nor the last
character; otherwise the empty string. -/
def pathSuffix (name : String) : String :=
  let cs := name.toList
  match lastDotIdx cs with
  | some i => if 0 < i ∧ i + 1 < cs.length then String.mk (cs.drop i) else ""
  | none => ""

/-- The stem of a file name, as `pathlib.Path(...).stem`: the name with its
suffix removed. -/
def pathStem (name : String) : String :=
  String.mk (name.toList.take (name.toList.length - (pathSuffix name).toList.length))

/-- The part of a path after the final slash (`os.path.basename` for the
slash-free basenames produced by the glob). -/
def basenameOf (p : String) : String :=
  String.mk (afterLastSlash p.toList)

/-- Model of the filesystem touched by the handler: a set of existing
directories and a map from file path to contents (bytes as `String`). -/
structure Fs where
  dirs : List String
  files : List (String × String)
deriving DecidableEq

/-- Writing a file (Python `open(path, "wb"); f.write(content)`): create or
overwrite. -/
def Fs.writeFile (fs : Fs) (p c : String) : Fs :=
  { fs with files := setEntry p c fs.files }

/-- Deleting a file (`os.remove`). -/
def Fs.removeFile (fs : Fs) (p : String) : Fs :=
  { fs with files := fs.files.filter (fun kv => kv.fst != p) }

/-- Reading a file if it exists (`os.path.exists` plus `open(...).read()`),
as in `get_infer_result`. -/
def Fs.readFile (fs : Fs) (p : String) : Option String :=
  lookupKey p fs.files

/-- Directory existence (`os.path.exists` on the parse directory). -/
def Fs.dirExists (fs : Fs) (p : String) : Bool :=
  fs.dirs.contains p

/-- The multipart form fields of one `/file_parse` request; `files` pairs
each original filename with its raw bytes. -/
structure Request where
  files : List (String × String)
  output_dir : String
  lang_list : List String
  backend : String
  parse_method : String
  formula_enable : Bool
  table_enable : Bool
  server_url : Option String
  return_md : Bool
  return_middle_json : Bool
  return_model_output : Bool
  return_content_list : Bool
  return_images : Bool
  start_page_id : Int
  end_page_id : Int
deriving DecidableEq

/-- The full keyword-argument record of the single `aio_do_parse` call,
together with the extra keyword arguments spread from the process-start
configuration (`**config`). -/
structure EngineArgs where
  output_dir : String
  pdf_file_names : List String
  pdf_bytes_list : List String
  p_lang_list : List String
  backend : String
  parse_method : String
  formula_enable : Bool
  table_enable : Bool
  server_url : Option String
  f_draw_layout_bbox : Bool
  f_draw_span_bbox : Bool
  f_dump_md : Bool
  f_dump_middle_json : Bool
  f_dump_model_output : Bool
  f_dump_orig_pdf : Bool
  f_dump_content_list : Bool
  start_page_id : Int
  end_page_id : Int
  extra : List (String × String)
deriving DecidableEq

/-- An artifact value in the result bundle: a text artifact (possibly the
JSON `null` produced when `get_infer_result` returns `None`), or the
basename-keyed image map. -/
inductive AVal : Type
  | txt : Option String → AVal
  | imgs : List (String × String) → AVal
deriving DecidableEq

/-- The JSON response: status code, the `error` field, the `request_id`
field, and the three success fields `backend`, `version`, `results`. -/
structure Response where
  status : Nat
  errorMsg : Option String
  requestId : Option Nat
  okBackend : Option String
  okVersion : Option String
  results : Option (List (String × List (String × AVal)))
deriving DecidableEq

/-- A 400 response `{"error": msg}`. -/
def clientError (msg : String) : Response :=
  { status := 400, errorMsg := some msg, requestId := none,
    okBackend := none, okVersion := none, results := none }

/-- A 500 response `{"error": msg, "request_id": rid}`. -/
def serverError (msg : String) (rid : Nat) : Response :=
  { status := 500, errorMsg := some msg, requestId := some rid,
    okBackend := none, okVersion := none, results := none }

/-- Everything one run of the handler produces or touches: the HTTP
response, the final filesystem, the list of engine invocations actually
issued, the workspace identifier drawn at entry, and the next unused
identifier of the UUID supply. -/
structure Outcome where
  response : Response
  fs : Fs
  engineCalls : List EngineArgs
  workspaceId : Nat
  nextUuid : Nat
deriving DecidableEq

/-- The external collaborators of the handler: the accepted suffix union
`pdf_suffixes + image_suffixes` from `mineru.cli.common`, the byte decoder
`read_fn`, the conversion engine `aio_do_parse` (consuming and producing a
filesystem, or raising), base64 encoding, and the package version string. -/
structure Externals where
  accepted : List String
  readFn : String → Except String String
  engine : EngineArgs → Fs → Except String Fs
  b64 : String → String
  version : String

/-- Result of the staging loop over the uploaded files: an early 400
response (with the filesystem at that point), or the accumulated stem names,
decoded payloads and filesystem. -/
inductive StageResult : Type
  | earlyResponse : Response → Fs → StageResult
  | staged : List String → List String → Fs → StageResult
deriving DecidableEq

/-- The per-file staging loop of `parse_pdf` (source lines 116-141): check
the lowercased suffix against the accepted union, write the bytes to the
temporary path `unique_dir/name`, decode with `read_fn`, and on success
append stem and payload and delete the temporary file.  A decode failure
returns the 400 response directly, leaving the temporary file in place,
exactly as the source (whose `os.remove` sits after `read_fn` inside the
`try`). -/
def stageLoop (accepted : List String) (readFn : String → Except String String)
    (unique_dir : String) :
    List (String × String) → List String → List String → Fs → StageResult
  | [], names, bytesList, fs => .staged names bytesList fs
  | (filename, content) :: rest, names, bytesList, fs =>
    let name := pathName filename
    let sfx := pathSuffix name
    if accepted.contains (lowerStr sfx) then
      let temp_path := unique_dir ++ "/" ++ name
      let fs1 := Fs.writeFile fs temp_path content
      match readFn content with
      | .ok payload =>
          stageLoop accepted readFn unique_dir rest
            (names ++ [pathStem name]) (bytesList ++ [payload])
            (Fs.removeFile fs1 temp_path)
      | .error e =>
          .earlyResponse (clientError ("Failed to load file: " ++ e)) fs1
    else
      .earlyResponse (clientError ("Unsupported file type: " ++ sfx)) fs

/-- Language reconciliation (source lines 143-146): keep the caller's list
when its length matches the file count, otherwise broadcast its first
element (default "ch" when empty). -/
def resolveLangs (lang_list : List String) (n : Nat) : List String :=
  if lang_list.length = n then lang_list
  else List.replicate n (lang_list.headD "ch")

/-- The names of the keyword arguments `parse_pdf` passes explicitly to
`aio_do_parse`; a `**config` key equal to one of these raises `TypeError`
at the call site. -/
def explicitKwargNames : List String :=
  ["output_dir", "pdf_file_names", "pdf_bytes_list", "p_lang_list", "backend",
   "parse_method", "formula_enable", "table_enable", "server_url",
   "f_draw_layout_bbox", "f_draw_span_bbox", "f_dump_md", "f_dump_middle_json",
   "f_dump_model_output", "f_dump_orig_pdf", "f_dump_content_list",
   "start_page_id", "end_page_id"]

/-- Whether the spread `**config` collides with an explicitly passed keyword
argument of `aio_do_parse`. -/
def kwargsCollide (config : List (String × String)) : Bool :=
  config.any (fun kv => explicitKwargNames.contains kv.fst)

/-- The message of the `TypeError` Python raises on a keyword collision. -/
def typeErrorMsg (config : List (String × String)) : String :=
  match config.find? (fun kv => explicitKwargNames.contains kv.fst) with
  | some kv => "aio_do_parse() got multiple values for keyword argument " ++ kv.fst
  | none => "aio_do_parse() unexpected keyword error"

/-- The keyword-argument record of the single `aio_do_parse` invocation
(source lines 149-169). -/
def mkEngineArgs (req : Request) (config : List (String × String))
    (unique_dir : String) (names bytesList : List String) : EngineArgs :=
  { output_dir := unique_dir
    pdf_file_names := names
    pdf_bytes_list := bytesList
    p_lang_list := resolveLangs req.lang_list names.length
    backend := req.backend
    parse_method := req.parse_method
    formula_enable := req.formula_enable
    table_enable := req.table_enable
    server_url := req.server_url
    f_draw_layout_bbox := false
    f_draw_span_bbox := false
    f_dump_md := req.return_md
    f_dump_middle_json := req.return_middle_json
    f_dump_model_output := req.return_model_output
    f_dump_orig_pdf := false
    f_dump_content_list := req.return_content_list
    start_page_id := req.start_page_id
    end_page_id := req.end_page_id
    extra := config }

/-- `get_infer_result` (source lines 62-68): read
`parse_dir/pdf_name + suffix` if it exists, else `None`. -/
def get_infer_result (fs : Fs) (file_suffix_identifier pdf_name parse_dir : String) :
    Option String :=
  Fs.readFile fs (parse_dir ++ "/" ++ pdf_name ++ file_suffix_identifier)

/-- The per-file parse directory (source lines 177-180): backends whose
identifier starts with "pipeline" use `unique_dir/stem/parse_method`, all
others `unique_dir/stem/vlm`. -/
def parseDirOf (unique_dir backend parse_method pdf_name : String) : String :=
  if strStartsWith backend "pipeline" then
    unique_dir ++ "/" ++ pdf_name ++ "/" ++ parse_method
  else
    unique_dir ++ "/" ++ pdf_name ++ "/vlm"

/-- The raw-model-output suffix (source lines 187-191): `_model.json` for
the pipeline family, `_model_output.txt` otherwise. -/
def modelOutputSuffix (backend : String) : String :=
  if strStartsWith backend "pipeline" then "_model.json" else "_model_output.txt"

/-- The glob `parse_dir/images/*.jpg` followed by base64 inlining (source
lines 194-201): every file directly under `parse_dir/images/` ending in
`.jpg`, keyed by basename, valued by its data-URL encoding. -/
def imagesOf (b64 : String → String) (fs : Fs) (parse_dir : String) :
    List (String × String) :=
  (fs.files.filter (fun kv =>
      strStartsWith kv.fst (parse_dir ++ "/images/") &&
      strEndsWith kv.fst ".jpg" &&
      !((kv.fst.toList.drop (parse_dir ++ "/images/").toList.length).contains '/'))).map
    (fun kv => (basenameOf kv.fst, "data:image/jpeg;base64," ++ b64 kv.snd))

/-- Result collection for a single stem (source lines 174-201): empty when
the parse directory is missing, otherwise one entry per requested artifact
kind, text kinds valued by `get_infer_result` (possibly `None`). -/
def collectStem (b64 : String → String) (fs : Fs)
    (unique_dir backend parse_method pdf_name : String)
    (return_md return_middle_json return_model_output return_content_list
      return_images : Bool) : List (String × AVal) :=
  let parse_dir := parseDirOf unique_dir backend parse_method pdf_name
  if Fs.dirExists fs parse_dir then
    (if return_md then
      [("md_content", AVal.txt (get_infer_result fs ".md" pdf_name parse_dir))] else []) ++
    (if return_middle_json then
      [("middle_json", AVal.txt (get_infer_result fs "_middle.json" pdf_name parse_dir))] else []) ++
    (if return_model_output then
      [("model_output", AVal.txt (get_infer_result fs (modelOutputSuffix backend) pdf_name parse_dir))] else []) ++
    (if return_content_list then
      [("content_list", AVal.txt (get_infer_result fs "_content_list.json" pdf_name parse_dir))] else []) ++
    (if return_images then
      [("images", AVal.imgs (imagesOf b64 fs parse_dir))] else [])
  else []

/-- The result-assembly loop (source lines 172-201): for each stem in
upload order, re-initialize its entry in the result dictionary with that
stem's collected bundle. -/
def collectLoop (b64 : String → String) (fs : Fs)
    (unique_dir backend parse_method : String)
    (rmd rmj rmo rcl rim : Bool) :
    List String → List (String × List (String × AVal)) →
      List (String × List (String × AVal))
  | [], acc => acc
  | pdf_name :: rest, acc =>
      collectLoop b64 fs unique_dir backend parse_method rmd rmj rmo rcl rim rest
        (setEntry pdf_name
          (collectStem b64 fs unique_dir backend parse_method pdf_name rmd rmj rmo rcl rim)
          acc)

/-- The workspace path `os.path.join(output_dir, str(uuid.uuid4()))`
(source line 109). -/
def uniqueDirOf (req : Request) (u0 : Nat) : String :=
  req.output_dir ++ "/" ++ toString u0

/-- The filesystem right after `os.makedirs(unique_dir, exist_ok=True)`
(source line 110). -/
def initialFs (req : Request) (u0 : Nat) (fs0 : Fs) : Fs :=
  { fs0 with dirs := uniqueDirOf req u0 :: fs0.dirs }

/-- The `/file_parse` handler `parse_pdf` (source lines 72-220): create the
workspace, stage and decode each upload (early 400 on unsupported suffix or
decode failure), reconcile languages, issue the single engine call (a
keyword collision from `**config` or an engine exception is caught by the
outer `except` and becomes a 500 with a fresh correlation identifier), then
assemble the per-stem result bundles into the 200 response. -/
def parse_pdf (ext : Externals) (config : List (String × String)) (req : Request)
    (fs0 : Fs) (u0 : Nat) : Outcome :=
  let unique_dir := uniqueDirOf req u0
  let fs1 := initialFs req u0 fs0
  match stageLoop ext.accepted ext.readFn unique_dir req.files [] [] fs1 with
  | .earlyResponse resp fs =>
      { response := resp, fs := fs, engineCalls := [],
        workspaceId := u0, nextUuid := u0 + 1 }
  | .staged names bytesList fs2 =>
      if kwargsCollide config then
        { response := serverError ("Failed to process file: " ++ typeErrorMsg config) (u0 + 1),
          fs := fs2, engineCalls := [],
          workspaceId := u0, nextUuid := u0 + 2 }
      else
        let args := mkEngineArgs req config unique_dir names bytesList
        match ext.engine args fs2 with
        | .error e =>
            { response := serverError ("Failed to process file: " ++ e) (u0 + 1),
              fs := fs2, engineCalls := [args],
              workspaceId := u0, nextUuid := u0 + 2 }
        | .ok fs3 =>
            { response :=
                { status := 200, errorMsg := none, requestId := none,
                  okBackend := some req.backend, okVersion := some ext.version,
                  results := some (collectLoop ext.b64 fs3 unique_dir req.backend
                    req.parse_method req.return_md req.return_middle_json
                    req.return_model_output req.return_content_list
                    req.return_images names []) },
              fs := fs3, engineCalls := [args],
              workspaceId := u0, nextUuid := u0 + 1 }

/-- The suffix (as reported in the 400 message) of the first uploaded file
whose lowercased extension is outside the accepted union. -/
def firstBadSuffix (accepted : List String) : List (String × String) → Option String
  | [] => none
  | (filename, _) :: rest =>
    let sfx := pathSuffix (pathName filename)
    if accepted.contains (lowerStr sfx) then firstBadSuffix accepted rest
    else some sfx

theorem lookupKey_setEntry_self {α : Type} (k : String) (v : α)
    (l : List (String × α)) : lookupKey k (setEntry k v l) = some v := by
  induction l with
  | nil => simp [setEntry, lookupKey]
  | cons p rest ih =>
    by_cases h : p.fst = k
    · simp [setEntry, h, lookupKey]
    · simp [setEntry, h, lookupKey, ih]

theorem lookupKey_setEntry_of_ne {α : Type} {k k' : String} (v : α)
    (l : List (String × α)) (h : k' ≠ k) :
    lookupKey k' (setEntry k v l) = lookupKey k' l := by
  have hk : k ≠ k' := fun he => h he.symm
  induction l with
  | nil => simp [setEntry, lookupKey, hk]
  | cons p rest ih =>
    by_cases hp : p.fst = k
    · subst hp
      simp [setEntry, lookupKey, hk]
    · by_cases hp' : p.fst = k'
      · simp [setEntry, hp, lookupKey, hp', h]
      · simp [setEntry, hp, lookupKey, hp', ih]

theorem lookupKey_filter_ne {α : Type} (p : String) (l : List (String × α)) :
    lookupKey p (l.filter (fun kv => kv.fst != p)) = none := by
  induction l with
  | nil => simp [lookupKey]
  | cons kv rest ih =>
    rw [List.filter_cons]
    by_cases h : kv.fst = p
    · have hb : (kv.fst != p) = false := by simp [bne, h]
      rw [hb]
      simpa using ih
    · have hb : (kv.fst != p) = true := by simp [bne, h]
      rw [hb]
      simpa [lookupKey, h] using ih

theorem readFile_writeFile_self (fs : Fs) (p c : String) :
    (fs.writeFile p c).readFile p = some c :=
  lookupKey_setEntry_self p c fs.files

theorem readFile_removeFile_self (fs : Fs) (p : String) :
    (fs.removeFile p).readFile p = none :=
  lookupKey_filter_ne p fs.files

theorem parse_pdf_early_eq (ext : Externals) (config : List (String × String))
    (req : Request) (fs0 : Fs) (u0 : Nat) (resp : Response) (fs : Fs)
    (hs : stageLoop ext.accepted ext.readFn (uniqueDirOf req u0) req.files [] []
      (initialFs req u0 fs0) = .earlyResponse resp fs) :
    parse_pdf ext config req fs0 u0 =
      { response := resp, fs := fs, engineCalls := [],
        workspaceId := u0, nextUuid := u0 + 1 } := by
  simp only [parse_pdf]
  rw [hs]

theorem parse_pdf_collide_eq (ext : Externals) (config : List (String × String))
    (req : Request) (fs0 : Fs) (u0 : Nat) (names bytesList : List String) (fs2 : Fs)
    (hs : stageLoop ext.accepted ext.readFn (uniqueDirOf req u0) req.files [] []
      (initialFs req u0 fs0) = .staged names bytesList fs2)
    (hc : kwargsCollide config = true) :
    parse_pdf ext config req fs0 u0 =
      { response := serverError ("Failed to process file: " ++ typeErrorMsg config) (u0 + 1),
        fs := fs2, engineCalls := [],
        workspaceId := u0, nextUuid := u0 + 2 } := by
  simp only [parse_pdf]
  rw [hs]
  simp [hc]

theorem parse_pdf_engineError_eq (ext : Externals) (config : List (String × String))
    (req : Request) (fs0 : Fs) (u0 : Nat) (names bytesList : List String)
    (fs2 : Fs) (e : String)
    (hs : stageLoop ext.accepted ext.readFn (uniqueDirOf req u0) req.files [] []
      (initialFs req u0 fs0) = .staged names bytesList fs2)
    (hc : kwargsCollide config = false)
    (he : ext.engine (mkEngineArgs req config (uniqueDirOf req u0) names bytesList) fs2 =
      .error e) :
    parse_pdf ext config req fs0 u0 =
      { response := serverError ("Failed to process file: " ++ e) (u0 + 1),
        fs := fs2,
        engineCalls := [mkEngineArgs req config (uniqueDirOf req u0) names bytesList],
        workspaceId := u0, nextUuid := u0 + 2 } := by
  simp only [parse_pdf]
  rw [hs]
  simp [hc, he]

theorem parse_pdf_ok_eq (ext : Externals) (config : List (String × String))
    (req : Request) (fs0 : Fs) (u0 : Nat) (names bytesList : List String)
    (fs2 fs3 : Fs)
    (hs : stageLoop ext.accepted ext.readFn (uniqueDirOf req u0) req.files [] []
      (initialFs req u0 fs0) = .staged names bytesList fs2)
    (hc : kwargsCollide config = false)
    (he : ext.engine (mkEngineArgs req config (uniqueDirOf req u0) names bytesList) fs2 =
      .ok fs3) :
    parse_pdf ext config req fs0 u0 =
      { response :=
          { status := 200, errorMsg := none, requestId := none,
            okBackend := some req.backend, okVersion := some ext.version,
            results := some (collectLoop ext.b64 fs3 (uniqueDirOf req u0) req.backend
              req.parse_method req.return_md req.return_middle_json
              req.return_model_output req.return_content_list
              req.return_images names []) },
        fs := fs3,
        engineCalls := [mkEngineArgs req config (uniqueDirOf req u0) names bytesList],
        workspaceId := u0, nextUuid := u0 + 1 } := by
  simp only [parse_pdf]
  rw [hs]
  simp [hc, he]

/-- Every engine invocation the handler issues is the single batched call
built by `mkEngineArgs` from a successful staging pass. -/
theorem engineCalls_eq (ext : Externals) (config : List (String × String))
    (req : Request) (fs0 : Fs) (u0 : Nat) (args : EngineArgs)
    (h : args ∈ (parse_pdf ext config req fs0 u0).engineCalls) :
    ∃ names bytesList fs2,
      stageLoop ext.accepted ext.readFn (uniqueDirOf req u0) req.files [] []
        (initialFs req u0 fs0) = .staged names bytesList fs2 ∧
      args = mkEngineArgs req config (uniqueDirOf req u0) names bytesList := by
  cases hs : stageLoop ext.accepted ext.readFn (uniqueDirOf req u0) req.files [] []
      (initialFs req u0 fs0) with
  | earlyResponse resp fs =>
    rw [parse_pdf_early_eq ext config req fs0 u0 resp fs hs] at h
    simp at h
  | staged names bytesList fs2 =>
    rcases Bool.eq_false_or_eq_true (kwargsCollide config) with hc | hc
    · rw [parse_pdf_collide_eq ext config req fs0 u0 names bytesList fs2 hs hc] at h
      simp at h
    · cases he : ext.engine (mkEngineArgs req config (uniqueDirOf req u0) names bytesList) fs2 with
      | error e =>
        rw [parse_pdf_engineError_eq ext config req fs0 u0 names bytesList fs2 e hs hc he] at h
        simp at h
        exact ⟨names, bytesList, fs2, rfl, h⟩
      | ok fs3 =>
        rw [parse_pdf_ok_eq ext config req fs0 u0 names bytesList fs2 fs3 hs hc he] at h
        simp at h
        exact ⟨names, bytesList, fs2, rfl, h⟩

theorem resolveLangs_length (lang_list : List String) (n : Nat) :
    (resolveLangs lang_list n).length = n := by
  by_cases h : lang_list.length = n <;> simp [resolveLangs, h]

theorem resolveLangs_eq_of_len {lang_list : List String} {n : Nat}
    (h : lang_list.length = n) : resolveLangs lang_list n = lang_list := by
  simp [resolveLangs, h]

theorem resolveLangs_mem_of_ne {lang_list : List String} {n : Nat}
    (h : lang_list.length ≠ n) :
    ∀ s ∈ resolveLangs lang_list n, s = lang_list.headD "ch" := by
  intro s hs
  simp only [resolveLangs, if_neg h] at hs
  exact List.eq_of_mem_replicate hs

/-- A decode collaborator that accepts every file, returning its bytes. -/
def wExt : Externals :=
  { accepted := [".pdf"], readFn := fun c => .ok c,
    engine := fun _ fs => .ok fs, b64 := fun s => s, version := "2.0.0" }

/-- A request with one valid upload, used to instantiate the theorems. -/
def wReq : Request :=
  { files := [("a.pdf", "AA")], output_dir := "./output", lang_list := ["en"],
    backend := "pipeline", parse_method := "auto",
    formula_enable := true, table_enable := true, server_url := none,
    return_md := true, return_middle_json := false, return_model_output := false,
    return_content_list := false, return_images := false,
    start_page_id := 0, end_page_id := 99999 }

/-- C1: the resolved language list handed to the engine has the length of
the accepted-file list; when the caller's list already has that length it is
passed through positionally, and otherwise every resolved entry is the first
caller-supplied language, defaulting to "ch" for an empty list. -/
theorem c1_language_reconciliation (ext : Externals) (config : List (String × String))
    (req : Request) (fs0 : Fs) (u0 : Nat) (args : EngineArgs)
    (h : args ∈ (parse_pdf ext config req fs0 u0).engineCalls) :
    args.p_lang_list.length = args.pdf_file_names.length ∧
    (req.lang_list.length = args.pdf_file_names.length →
      args.p_lang_list = req.lang_list) ∧
    (req.lang_list.length ≠ args.pdf_file_names.length →
      ∀ s ∈ args.p_lang_list, s = req.lang_list.headD "ch") := by
  obtain ⟨names, bytesList, fs2, -, rfl⟩ := engineCalls_eq ext config req fs0 u0 args h
  refine ⟨resolveLangs_length _ _, ?_, ?_⟩
  · intro hlen
    exact resolveLangs_eq_of_len hlen
  · intro hne
    exact resolveLangs_mem_of_ne hne

theorem c1_language_reconciliation_witness :
    (mkEngineArgs wReq [] (uniqueDirOf wReq 0) ["a"] ["AA"]).p_lang_list = ["en"] :=
  (c1_language_reconciliation wExt [] wReq ⟨[], []⟩ 0
    (mkEngineArgs wReq [] (uniqueDirOf wReq 0) ["a"] ["AA"]) (by decide)).2.1 (by decide)

/-- C4: a backend starting with "pipeline" resolves the per-stem subtree to
`{workspace}/{stem}/{parse_method}` and reads raw model output with the
`_model.json` suffix; any other backend resolves to `{workspace}/{stem}/vlm`
with the `_model_output.txt` suffix; and collection depends on the backend
only through this family bit, so no other artifact naming is
backend-conditional. -/
theorem c4_backend_family (unique_dir parse_method stem backend b1 b2 : String)
    (b64 : String → String) (fs : Fs) (rmd rmj rmo rcl rim : Bool) :
    (strStartsWith backend "pipeline" = true →
      parseDirOf unique_dir backend parse_method stem =
        unique_dir ++ "/" ++ stem ++ "/" ++ parse_method ∧
      modelOutputSuffix backend = "_model.json") ∧
    (strStartsWith backend "pipeline" = false →
      parseDirOf unique_dir backend parse_method stem =
        unique_dir ++ "/" ++ stem ++ "/vlm" ∧
      modelOutputSuffix backend = "_model_output.txt") ∧
    (strStartsWith b1 "pipeline" = strStartsWith b2 "pipeline" →
      collectStem b64 fs unique_dir b1 parse_method stem rmd rmj rmo rcl rim =
        collectStem b64 fs unique_dir b2 parse_method stem rmd rmj rmo rcl rim) := by
  refine ⟨?_, ?_, ?_⟩
  · intro h
    simp [parseDirOf, modelOutputSuffix, h]
  · intro h
    simp [parseDirOf, modelOutputSuffix, h]
  · intro h
    simp only [collectStem, parseDirOf, modelOutputSuffix, get_infer_result]
    rw [← h]

theorem c4_backend_family_witness :
    parseDirOf "w" "pipeline" "auto" "s" = "w/s/auto" ∧
    modelOutputSuffix "pipeline" = "_model.json" :=
  (c4_backend_family "w" "auto" "s" "pipeline" "pipeline" "pipeline"
    (fun s => s) ⟨[], []⟩ true true true true true).1 (by decide)

/-- C7: in every engine invocation the handler issues, each dump flag
equals its corresponding caller boolean, and the layout overlay, span
overlay and original-PDF dump flags are disabled, whatever the inputs. -/
theorem c7_dump_flags (ext : Externals) (config : List (String × String))
    (req : Request) (fs0 : Fs) (u0 : Nat) (args : EngineArgs)
    (h : args ∈ (parse_pdf ext config req fs0 u0).engineCalls) :
    args.f_dump_md = req.return_md ∧
    args.f_dump_middle_json = req.return_middle_json ∧
    args.f_dump_model_output = req.return_model_output ∧
    args.f_dump_content_list = req.return_content_list ∧
    args.f_draw_layout_bbox = false ∧
    args.f_draw_span_bbox = false ∧
    args.f_dump_orig_pdf = false := by
  obtain ⟨names, bytesList, fs2, -, rfl⟩ := engineCalls_eq ext config req fs0 u0 args h
  exact ⟨rfl, rfl, rfl, rfl, rfl, rfl, rfl⟩

theorem c7_dump_flags_witness :
    (mkEngineArgs wReq [] (uniqueDirOf wReq 0) ["a"] ["AA"]).f_dump_md = true ∧
    (mkEngineArgs wReq [] (uniqueDirOf wReq 0) ["a"] ["AA"]).f_draw_layout_bbox = false :=
  let h := c7_dump_flags wExt [] wReq ⟨[], []⟩ 0
    (mkEngineArgs wReq [] (uniqueDirOf wReq 0) ["a"] ["AA"]) (by decide)
  ⟨h.1, h.2.2.2.2.1⟩

/-- A decode collaborator that rejects every file. -/
def wExtFail : Externals := { wExt with readFn := fun _ => .error "boom" }

/-- A request whose second upload has an unsupported extension. -/
def wReqBad : Request := { wReq with files := [("a.pdf", "AA"), ("b.xyz", "BB")] }

/-- C2 counterexample: on a decode failure the handler returns the 400
response while the failing file's temporary copy is still present in the
workspace, so cleanup does not happen on the failure exit path. -/
theorem c2_counterexample :
    (parse_pdf wExtFail [] wReq ⟨[], []⟩ 0).response =
      clientError ("Failed to load file: " ++ "boom") ∧
    (parse_pdf wExtFail [] wReq ⟨[], []⟩ 0).fs.files =
      [("./output/0/a.pdf", "AA")] :=
  ⟨by decide, by decide⟩

/-- C2 (amended): the temporary copy written during staging is deleted when
the decode collaborator succeeds, but when it raises the handler returns the
400 response directly and the failing file's temporary copy remains on
disk. -/
theorem c2_amended_cleanup (accepted : List String)
    (readFn : String → Except String String) (unique_dir filename content : String)
    (rest : List (String × String)) (names bytesList : List String) (fs : Fs)
    (hacc : accepted.contains (lowerStr (pathSuffix (pathName filename))) = true) :
    (∀ e, readFn content = .error e →
      stageLoop accepted readFn unique_dir ((filename, content) :: rest) names bytesList fs =
        .earlyResponse (clientError ("Failed to load file: " ++ e))
          (fs.writeFile (unique_dir ++ "/" ++ pathName filename) content) ∧
      (fs.writeFile (unique_dir ++ "/" ++ pathName filename) content).readFile
        (unique_dir ++ "/" ++ pathName filename) = some content) ∧
    (∀ b, readFn content = .ok b →
      stageLoop accepted readFn unique_dir ((filename, content) :: rest) names bytesList fs =
        stageLoop accepted readFn unique_dir rest (names ++ [pathStem (pathName filename)])
          (bytesList ++ [b])
          ((fs.writeFile (unique_dir ++ "/" ++ pathName filename) content).removeFile
            (unique_dir ++ "/" ++ pathName filename)) ∧
      ((fs.writeFile (unique_dir ++ "/" ++ pathName filename) content).removeFile
        (unique_dir ++ "/" ++ pathName filename)).readFile
        (unique_dir ++ "/" ++ pathName filename) = none) := by
  constructor
  · intro e he
    refine ⟨?_, readFile_writeFile_self fs _ content⟩
    simp only [stageLoop]
    rw [if_pos hacc, he]
  · intro b hb
    refine ⟨?_, readFile_removeFile_self _ _⟩
    simp only [stageLoop]
    rw [if_pos hacc, hb]

theorem c2_amended_cleanup_witness :
    (stageLoop [".pdf"] (fun _ => Except.error "boom") "./output/0"
        [("a.pdf", "AA")] [] [] ⟨["./output/0"], []⟩ =
      .earlyResponse (clientError ("Failed to load file: " ++ "boom"))
        (Fs.writeFile ⟨["./output/0"], []⟩ ("./output/0" ++ "/" ++ pathName "a.pdf") "AA")) ∧
    (Fs.writeFile ⟨["./output/0"], []⟩ ("./output/0" ++ "/" ++ pathName "a.pdf") "AA").readFile
      ("./output/0" ++ "/" ++ pathName "a.pdf") = some "AA" :=
  (c2_amended_cleanup [".pdf"] (fun _ => Except.error "boom") "./output/0" "a.pdf" "AA"
    [] [] [] ⟨["./output/0"], []⟩ (by decide)).1 "boom" rfl

theorem eq_false_imp_ne_true {b : Bool} (h : b = false) : ¬b = true := by
  simp [h]

/-- When every file is accepted up to the first unsupported suffix and the
decoder succeeds on all contents, the staging loop returns the 400 response
naming that suffix, without touching the directory set. -/
theorem stageLoop_firstBad (accepted : List String)
    (readFn : String → Except String String) (unique_dir : String)
    (hok : ∀ c, ∃ b, readFn c = .ok b) :
    ∀ (files : List (String × String)) (names bytesList : List String) (fs : Fs)
      (sfx : String), firstBadSuffix accepted files = some sfx →
      ∃ fs', stageLoop accepted readFn unique_dir files names bytesList fs =
          .earlyResponse (clientError ("Unsupported file type: " ++ sfx)) fs' ∧
        fs'.dirs = fs.dirs := by
  intro files
  induction files with
  | nil =>
    intro names bytesList fs sfx hbad
    simp [firstBadSuffix] at hbad
  | cons f rest ih =>
    intro names bytesList fs sfx hbad
    obtain ⟨filename, content⟩ := f
    cases hacc : accepted.contains (lowerStr (pathSuffix (pathName filename))) with
    | false =>
      simp only [firstBadSuffix] at hbad
      rw [if_neg (eq_false_imp_ne_true hacc)] at hbad
      injection hbad with hbad
      subst hbad
      refine ⟨fs, ?_, rfl⟩
      simp only [stageLoop]
      rw [if_neg (eq_false_imp_ne_true hacc)]
    | true =>
      simp only [firstBadSuffix] at hbad
      rw [if_pos hacc] at hbad
      obtain ⟨b, hb⟩ := hok content
      obtain ⟨fs', heq, hdirs⟩ := ih (names ++ [pathStem (pathName filename)])
        (bytesList ++ [b])
        ((fs.writeFile (unique_dir ++ "/" ++ pathName filename) content).removeFile
          (unique_dir ++ "/" ++ pathName filename)) sfx hbad
      refine ⟨fs', ?_, hdirs⟩
      simp only [stageLoop]
      rw [if_pos hacc, hb]
      exact heq

/-- C3 counterexample: a request with a valid first file and an unsupported
second file is rejected with 400 naming the extension and without an engine
call, but the workspace directory has been created — contradicting the
claim that no partial workspace directory is created. -/
theorem c3_counterexample :
    (parse_pdf wExt [] wReqBad ⟨[], []⟩ 0).response =
      clientError ("Unsupported file type: " ++ ".xyz") ∧
    (parse_pdf wExt [] wReqBad ⟨[], []⟩ 0).engineCalls = [] ∧
    (parse_pdf wExt [] wReqBad ⟨[], []⟩ 0).fs.dirs = ["./output/0"] :=
  ⟨by decide, by decide, by decide⟩

/-- C3 (amended): a request containing a file with an unsupported extension
(all files decodable, validity of preceding files arbitrary) yields a 400
response naming the first offending extension and the engine is never
invoked — but the workspace directory has already been created and remains
in the final state, and files preceding the offending one have been staged
and decoded. -/
theorem c3_amended_rejection (ext : Externals) (config : List (String × String))
    (req : Request) (fs0 : Fs) (u0 : Nat) (sfx : String)
    (hok : ∀ c, ∃ b, ext.readFn c = .ok b)
    (hbad : firstBadSuffix ext.accepted req.files = some sfx) :
    (parse_pdf ext config req fs0 u0).response =
      clientError ("Unsupported file type: " ++ sfx) ∧
    (parse_pdf ext config req fs0 u0).engineCalls = [] ∧
    (parse_pdf ext config req fs0 u0).fs.dirs = uniqueDirOf req u0 :: fs0.dirs := by
  obtain ⟨fs', heq, hdirs⟩ := stageLoop_firstBad ext.accepted ext.readFn
    (uniqueDirOf req u0) hok req.files [] [] (initialFs req u0 fs0) sfx hbad
  rw [parse_pdf_early_eq ext config req fs0 u0 _ fs' heq]
  exact ⟨rfl, rfl, hdirs⟩

theorem c3_amended_rejection_witness :
    (parse_pdf wExt [] wReqBad ⟨[], []⟩ 0).response =
      clientError ("Unsupported file type: " ++ ".xyz") ∧
    (parse_pdf wExt [] wReqBad ⟨[], []⟩ 0).engineCalls = [] ∧
    (parse_pdf wExt [] wReqBad ⟨[], []⟩ 0).fs.dirs = uniqueDirOf wReqBad 0 :: [] :=
  c3_amended_rejection wExt [] wReqBad ⟨[], []⟩ 0 ".xyz"
    (fun c => ⟨c, rfl⟩) (by decide)

/-- C8 counterexample: a configuration key naming an explicitly passed
engine parameter does not take lower precedence — the call raises
`TypeError`, the engine is never invoked, and the request fails with 500. -/
theorem c8_counterexample :
    (parse_pdf wExt [("backend", "x")] wReq ⟨[], []⟩ 0).engineCalls = [] ∧
    (parse_pdf wExt [("backend", "x")] wReq ⟨[], []⟩ 0).response =
      serverError ("Failed to process file: " ++
        "aio_do_parse() got multiple values for keyword argument backend") 1 :=
  ⟨by decide, by decide⟩

/-- C8 (amended): configuration parameters whose keys are disjoint from the
per-request parameter names are merged into every engine invocation; when a
configuration key names the same engine parameter as a request field the
invocation raises instead, the engine is never called, and the request
fails with a 500 server error. -/
theorem c8_amended_config_layering (ext : Externals)
    (config : List (String × String)) (req : Request) (fs0 : Fs) (u0 : Nat) :
    (kwargsCollide config = false →
      ∀ args ∈ (parse_pdf ext config req fs0 u0).engineCalls, args.extra = config) ∧
    (kwargsCollide config = true →
      ∀ names bytesList fs2,
        stageLoop ext.accepted ext.readFn (uniqueDirOf req u0) req.files [] []
          (initialFs req u0 fs0) = .staged names bytesList fs2 →
        (parse_pdf ext config req fs0 u0).engineCalls = [] ∧
        (parse_pdf ext config req fs0 u0).response =
          serverError ("Failed to process file: " ++ typeErrorMsg config) (u0 + 1)) := by
  constructor
  · intro _ args h
    obtain ⟨names, bytesList, fs2, -, rfl⟩ := engineCalls_eq ext config req fs0 u0 args h
    rfl
  · intro hc names bytesList fs2 hs
    rw [parse_pdf_collide_eq ext config req fs0 u0 names bytesList fs2 hs hc]
    exact ⟨rfl, rfl⟩

theorem c8_amended_config_layering_witness :
    (mkEngineArgs wReq [("extra_key", "1")] (uniqueDirOf wReq 0) ["a"] ["AA"]).extra =
      [("extra_key", "1")] ∧
    (parse_pdf wExt [("backend", "x")] wReq ⟨[], []⟩ 0).engineCalls = [] :=
  ⟨(c8_amended_config_layering wExt [("extra_key", "1")] wReq ⟨[], []⟩ 0).1 (by decide)
      (mkEngineArgs wReq [("extra_key", "1")] (uniqueDirOf wReq 0) ["a"] ["AA"]) (by decide),
    ((c8_amended_config_layering wExt [("backend", "x")] wReq ⟨[], []⟩ 0).2 (by decide)
      ["a"] ["AA"] ⟨["./output/0"], []⟩ (by decide)).1⟩

/-- C5 counterexample: when the subtree exists and the markdown artifact is
absent, the stem's bundle contains the key `md_content` mapped to the null
value — the key is present, contradicting the claimed omission. -/
theorem c5_counterexample :
    collectStem (fun s => s) ⟨["w/a/auto"], []⟩ "w" "pipeline" "auto" "a"
      true false false false false = [("md_content", AVal.txt none)] := by
  decide

/-- C5 (amended): for every stem whose subtree exists and every requested
artifact kind whose underlying file is absent, the stem's bundle entry maps
that kind's key to the null value (empty mapping for images) rather than
omitting the key; no error is raised. -/
theorem c5_amended_null_artifacts (b64 : String → String) (fs : Fs)
    (unique_dir backend parse_method stem : String) (rmd rmj rmo rcl rim : Bool)
    (hdir : Fs.dirExists fs (parseDirOf unique_dir backend parse_method stem) = true) :
    (rmd = true →
      get_infer_result fs ".md" stem (parseDirOf unique_dir backend parse_method stem) = none →
      lookupKey "md_content"
        (collectStem b64 fs unique_dir backend parse_method stem rmd rmj rmo rcl rim) =
        some (AVal.txt none)) ∧
    (rmj = true →
      get_infer_result fs "_middle.json" stem (parseDirOf unique_dir backend parse_method stem) = none →
      lookupKey "middle_json"
        (collectStem b64 fs unique_dir backend parse_method stem rmd rmj rmo rcl rim) =
        some (AVal.txt none)) ∧
    (rmo = true →
      get_infer_result fs (modelOutputSuffix backend) stem
        (parseDirOf unique_dir backend parse_method stem) = none →
      lookupKey "model_output"
        (collectStem b64 fs unique_dir backend parse_method stem rmd rmj rmo rcl rim) =
        some (AVal.txt none)) ∧
    (rcl = true →
      get_infer_result fs "_content_list.json" stem
        (parseDirOf unique_dir backend parse_method stem) = none →
      lookupKey "content_list"
        (collectStem b64 fs unique_dir backend parse_method stem rmd rmj rmo rcl rim) =
        some (AVal.txt none)) ∧
    (rim = true →
      imagesOf b64 fs (parseDirOf unique_dir backend parse_method stem) = [] →
      lookupKey "images"
        (collectStem b64 fs unique_dir backend parse_method stem rmd rmj rmo rcl rim) =
        some (AVal.imgs [])) := by
  refine ⟨?_, ?_, ?_, ?_, ?_⟩
  · intro hf habs
    subst hf
    cases rmj <;> cases rmo <;> cases rcl <;> cases rim <;>
      simp [collectStem, hdir, habs, lookupKey]
  · intro hf habs
    subst hf
    cases rmd <;> cases rmo <;> cases rcl <;> cases rim <;>
      simp [collectStem, hdir, habs, lookupKey]
  · intro hf habs
    subst hf
    cases rmd <;> cases rmj <;> cases rcl <;> cases rim <;>
      simp [collectStem, hdir, habs, lookupKey]
  · intro hf habs
    subst hf
    cases rmd <;> cases rmj <;> cases rmo <;> cases rim <;>
      simp [collectStem, hdir, habs, lookupKey]
  · intro hf habs
    subst hf
    cases rmd <;> cases rmj <;> cases rmo <;> cases rcl <;>
      simp [collectStem, hdir, habs, lookupKey]

theorem c5_amended_null_artifacts_witness :
    lookupKey "md_content"
      (collectStem (fun s => s) ⟨["w/a/auto"], []⟩ "w" "pipeline" "auto" "a"
        true false false false false) = some (AVal.txt none) :=
  (c5_amended_null_artifacts (fun s => s) ⟨["w/a/auto"], []⟩ "w" "pipeline" "auto" "a"
    true false false false false (by decide)).1 rfl (by decide)

/-- Every early response produced by the staging loop is a 400 with no
correlation identifier. -/
theorem stageLoop_early_shape (accepted : List String)
    (readFn : String → Except String String) (unique_dir : String) :
    ∀ (files : List (String × String)) (names bytesList : List String) (fs : Fs)
      (resp : Response) (fs' : Fs),
      stageLoop accepted readFn unique_dir files names bytesList fs =
        .earlyResponse resp fs' →
      resp.status = 400 ∧ resp.requestId = none := by
  intro files
  induction files with
  | nil =>
    intro names bytesList fs resp fs' h
    simp [stageLoop] at h
  | cons f rest ih =>
    intro names bytesList fs resp fs' h
    obtain ⟨filename, content⟩ := f
    cases hacc : accepted.contains (lowerStr (pathSuffix (pathName filename))) with
    | false =>
      simp only [stageLoop] at h
      rw [if_neg (eq_false_imp_ne_true hacc)] at h
      injection h with h1 h2
      subst h1
      exact ⟨rfl, rfl⟩
    | true =>
      simp only [stageLoop] at h
      rw [if_pos hacc] at h
      cases hr : readFn content with
      | ok b =>
        rw [hr] at h
        exact ih _ _ _ _ _ h
      | error e =>
        rw [hr] at h
        injection h with h1 h2
        subst h1
        exact ⟨rfl, rfl⟩

/-- C6: every 400 response carries no correlation identifier; every 500
response carries the freshly drawn identifier `u0 + 1`, distinct from the
workspace identifier `u0`; and an engine exception specifically produces the
500 envelope embedding the original failure message. -/
theorem c6_error_envelope (ext : Externals) (config : List (String × String))
    (req : Request) (fs0 : Fs) (u0 : Nat) :
    ((parse_pdf ext config req fs0 u0).response.status = 400 →
      (parse_pdf ext config req fs0 u0).response.requestId = none) ∧
    ((parse_pdf ext config req fs0 u0).response.status = 500 →
      (parse_pdf ext config req fs0 u0).response.requestId = some (u0 + 1) ∧
      (parse_pdf ext config req fs0 u0).workspaceId = u0 ∧ u0 + 1 ≠ u0) ∧
    (∀ (names bytesList : List String) (fs2 : Fs) (e : String),
      stageLoop ext.accepted ext.readFn (uniqueDirOf req u0) req.files [] []
        (initialFs req u0 fs0) = .staged names bytesList fs2 →
      kwargsCollide config = false →
      ext.engine (mkEngineArgs req config (uniqueDirOf req u0) names bytesList) fs2 =
        .error e →
      (parse_pdf ext config req fs0 u0).response =
        serverError ("Failed to process file: " ++ e) (u0 + 1)) := by
  cases hs : stageLoop ext.accepted ext.readFn (uniqueDirOf req u0) req.files [] []
      (initialFs req u0 fs0) with
  | earlyResponse resp fs =>
    have hshape := stageLoop_early_shape ext.accepted ext.readFn (uniqueDirOf req u0)
      req.files [] [] (initialFs req u0 fs0) resp fs hs
    rw [parse_pdf_early_eq ext config req fs0 u0 resp fs hs]
    refine ⟨fun _ => hshape.2, ?_, ?_⟩
    · intro h500
      rw [hshape.1] at h500
      exact absurd h500 (by norm_num)
    · intro names bytesList fs2 e hstage
      exact absurd hstage (by simp)
  | staged names bytesList fs2 =>
    rcases Bool.eq_false_or_eq_true (kwargsCollide config) with hc | hc
    · rw [parse_pdf_collide_eq ext config req fs0 u0 names bytesList fs2 hs hc]
      refine ⟨?_, fun _ => ⟨rfl, rfl, Nat.succ_ne_self u0⟩, ?_⟩
      · intro h400
        norm_num [serverError] at h400
      · intro names' bytesList' fs2' e hstage hc' he
        rw [hc'] at hc
        exact absurd hc (by simp)
    · cases heng : ext.engine (mkEngineArgs req config (uniqueDirOf req u0) names bytesList) fs2 with
      | error e0 =>
        rw [parse_pdf_engineError_eq ext config req fs0 u0 names bytesList fs2 e0 hs hc heng]
        refine ⟨?_, fun _ => ⟨rfl, rfl, Nat.succ_ne_self u0⟩, ?_⟩
        · intro h400
          norm_num [serverError] at h400
        · intro names' bytesList' fs2' e hstage hc' he
          injection hstage with h1 h2 h3
          subst h1; subst h2; subst h3
          rw [heng] at he
          injection he with he
          subst he
          rfl
      | ok fs3 =>
        rw [parse_pdf_ok_eq ext config req fs0 u0 names bytesList fs2 fs3 hs hc heng]
        refine ⟨?_, ?_, ?_⟩
        · intro h400
          norm_num at h400
        · intro h500
          norm_num at h500
        · intro names' bytesList' fs2' e hstage hc' he
          injection hstage with h1 h2 h3
          subst h1; subst h2; subst h3
          rw [heng] at he
          exact absurd he (by simp)

/-- Collection of a stem whose parse directory does not exist yields the
empty bundle. -/
theorem collectStem_of_no_dir (b64 : String → String) (fs : Fs)
    (unique_dir backend parse_method stem : String) (rmd rmj rmo rcl rim : Bool)
    (hdir : Fs.dirExists fs (parseDirOf unique_dir backend parse_method stem) = false) :
    collectStem b64 fs unique_dir backend parse_method stem rmd rmj rmo rcl rim = [] := by
  simp only [collectStem]
  rw [if_neg (eq_false_imp_ne_true hdir)]

theorem lookupKey_collectLoop_not_mem (b64 : String → String) (fs : Fs)
    (unique_dir backend parse_method : String) (rmd rmj rmo rcl rim : Bool) :
    ∀ (names : List String) (acc : List (String × List (String × AVal))) (stem : String),
      stem ∉ names →
      lookupKey stem (collectLoop b64 fs unique_dir backend parse_method
        rmd rmj rmo rcl rim names acc) = lookupKey stem acc := by
  intro names
  induction names with
  | nil => intro acc stem _; rfl
  | cons n rest ih =>
    intro acc stem h
    have h1 : stem ≠ n := fun he => h (he ▸ List.mem_cons_self n rest)
    have h2 : stem ∉ rest := fun hm => h (List.mem_cons_of_mem n hm)
    simp only [collectLoop]
    rw [ih _ stem h2, lookupKey_setEntry_of_ne _ _ h1]

theorem lookupKey_collectLoop_mem (b64 : String → String) (fs : Fs)
    (unique_dir backend parse_method : String) (rmd rmj rmo rcl rim : Bool) :
    ∀ (names : List String) (acc : List (String × List (String × AVal))) (stem : String),
      stem ∈ names →
      lookupKey stem (collectLoop b64 fs unique_dir backend parse_method
        rmd rmj rmo rcl rim names acc) =
        some (collectStem b64 fs unique_dir backend parse_method stem
          rmd rmj rmo rcl rim) := by
  intro names
  induction names with
  | nil => intro acc stem h; cases h
  | cons n rest ih =>
    intro acc stem h
    by_cases hr : stem ∈ rest
    · simp only [collectLoop]
      exact ih _ stem hr
    · have hn : stem = n := by
        rcases List.mem_cons.mp h with h1 | h2
        · exact h1
        · exact absurd h2 hr
      subst hn
      simp only [collectLoop]
      rw [lookupKey_collectLoop_not_mem b64 fs unique_dir backend parse_method
        rmd rmj rmo rcl rim rest _ stem hr, lookupKey_setEntry_self]

/-- C9: for a stem of a successfully dispatched batch whose computed parse
directory does not exist after the engine call, the response is still 200
and the stem contributes an empty bundle. -/
theorem c9_degraded_success (ext : Externals) (config : List (String × String))
    (req : Request) (fs0 : Fs) (u0 : Nat) (names bytesList : List String)
    (fs2 fs3 : Fs) (stem : String)
    (hs : stageLoop ext.accepted ext.readFn (uniqueDirOf req u0) req.files [] []
      (initialFs req u0 fs0) = .staged names bytesList fs2)
    (hc : kwargsCollide config = false)
    (he : ext.engine (mkEngineArgs req config (uniqueDirOf req u0) names bytesList) fs2 =
      .ok fs3)
    (hmem : stem ∈ names)
    (hdir : Fs.dirExists fs3
      (parseDirOf (uniqueDirOf req u0) req.backend req.parse_method stem) = false) :
    (parse_pdf ext config req fs0 u0).response.status = 200 ∧
    ∃ results, (parse_pdf ext config req fs0 u0).response.results = some results ∧
      lookupKey stem results = some [] := by
  rw [parse_pdf_ok_eq ext config req fs0 u0 names bytesList fs2 fs3 hs hc he]
  refine ⟨rfl, _, rfl, ?_⟩
  rw [lookupKey_collectLoop_mem ext.b64 fs3 (uniqueDirOf req u0) req.backend
    req.parse_method req.return_md req.return_middle_json req.return_model_output
    req.return_content_list req.return_images names [] stem hmem]
  rw [collectStem_of_no_dir ext.b64 fs3 (uniqueDirOf req u0) req.backend
    req.parse_method stem req.return_md req.return_middle_json req.return_model_output
    req.return_content_list req.return_images hdir]

theorem c9_degraded_success_witness :
    (parse_pdf wExt [] wReq ⟨[], []⟩ 0).response.status = 200 ∧
    ∃ results, (parse_pdf wExt [] wReq ⟨[], []⟩ 0).response.results = some results ∧
      lookupKey "a" results = some [] :=
  c9_degraded_success wExt [] wReq ⟨[], []⟩ 0 ["a"] ["AA"] ⟨["./output/0"], []⟩
    ⟨["./output/0"], []⟩ "a" (by decide) rfl rfl (by decide) (by decide)

/-- An engine collaborator that always raises. -/
def wExtEngineFail : Externals := { wExt with engine := fun _ _ => .error "ka" }

theorem c6_error_envelope_witness :
    (parse_pdf wExtEngineFail [] wReq ⟨[], []⟩ 0).response =
      serverError ("Failed to process file: " ++ "ka") 1 :=
  (c6_error_envelope wExtEngineFail [] wReq ⟨[], []⟩ 0).2.2 ["a"] ["AA"]
    ⟨["./output/0"], []⟩ "ka" (by decide) rfl rfl

theorem keys_setEntry {α : Type} (k : String) (v : α) :
    ∀ l : List (String × α), (setEntry k v l).map Prod.fst =
      if k ∈ l.map Prod.fst then l.map Prod.fst else l.map Prod.fst ++ [k] := by
  intro l
  induction l with
  | nil => simp [setEntry]
  | cons p rest ih =>
    by_cases hp : p.fst = k
    · subst hp
      simp [setEntry]
    · have hp' : ¬k = p.fst := fun h => hp h.symm
      by_cases hk : k ∈ rest.map Prod.fst
      · simp [setEntry, hp, ih, hk, hp']
      · simp [setEntry, hp, ih, hk, hp']

theorem nodup_keys_setEntry {α : Type} (k : String) (v : α)
    (l : List (String × α)) (h : (l.map Prod.fst).Nodup) :
    ((setEntry k v l).map Prod.fst).Nodup := by
  rw [keys_setEntry]
  by_cases hk : k ∈ l.map Prod.fst
  · simp [hk, h]
  · simp [hk, List.nodup_append, h]

theorem mem_keys_setEntry {α : Type} (k k' : String) (v : α)
    (l : List (String × α)) :
    (k' ∈ (setEntry k v l).map Prod.fst) ↔ k' = k ∨ k' ∈ l.map Prod.fst := by
  rw [keys_setEntry]
  by_cases hk : k ∈ l.map Prod.fst
  · simp only [hk, if_true]
    constructor
    · exact Or.inr
    · rintro (rfl | h)
      · exact hk
      · exact h
  · simp [hk, or_comm]

theorem nodup_keys_collectLoop (b64 : String → String) (fs : Fs)
    (unique_dir backend parse_method : String) (rmd rmj rmo rcl rim : Bool) :
    ∀ (names : List String) (acc : List (String × List (String × AVal))),
      (acc.map Prod.fst).Nodup →
      ((collectLoop b64 fs unique_dir backend parse_method
        rmd rmj rmo rcl rim names acc).map Prod.fst).Nodup := by
  intro names
  induction names with
  | nil => intro acc h; exact h
  | cons n rest ih =>
    intro acc h
    simp only [collectLoop]
    exact ih _ (nodup_keys_setEntry _ _ _ h)

theorem mem_keys_collectLoop (b64 : String → String) (fs : Fs)
    (unique_dir backend parse_method : String) (rmd rmj rmo rcl rim : Bool) :
    ∀ (names : List String) (acc : List (String × List (String × AVal)))
      (stem : String),
      (stem ∈ (collectLoop b64 fs unique_dir backend parse_method
        rmd rmj rmo rcl rim names acc).map Prod.fst) ↔
        stem ∈ names ∨ stem ∈ acc.map Prod.fst := by
  intro names
  induction names with
  | nil =>
    intro acc stem
    simp [collectLoop]
  | cons n rest ih =>
    intro acc stem
    simp only [collectLoop]
    rw [ih, mem_keys_setEntry]
    simp only [List.mem_cons]
    tauto

/-- When every uploaded file has an accepted suffix and the decoder never
fails, staging succeeds, producing exactly the stems of all uploads in
order, and one payload per upload. -/
theorem stageLoop_all_ok (accepted : List String)
    (readFn : String → Except String String) (unique_dir : String)
    (hok : ∀ c, ∃ b, readFn c = .ok b) :
    ∀ (files : List (String × String)) (names bytesList : List String) (fs : Fs),
      (∀ f ∈ files, accepted.contains (lowerStr (pathSuffix (pathName f.fst))) = true) →
      ∃ bytesFinal fs',
        stageLoop accepted readFn unique_dir files names bytesList fs =
          .staged (names ++ files.map (fun f => pathStem (pathName f.fst)))
            bytesFinal fs' ∧
        bytesFinal.length = bytesList.length + files.length := by
  intro files
  induction files with
  | nil =>
    intro names bytesList fs _
    exact ⟨bytesList, fs, by simp [stageLoop], by simp⟩
  | cons f rest ih =>
    intro names bytesList fs hacc
    obtain ⟨filename, content⟩ := f
    obtain ⟨b, hb⟩ := hok content
    have haccf := hacc (filename, content) (List.mem_cons_self _ _)
    obtain ⟨bytesFinal, fs', heq, hlen⟩ := ih (names ++ [pathStem (pathName filename)])
      (bytesList ++ [b])
      ((fs.writeFile (unique_dir ++ "/" ++ pathName filename) content).removeFile
        (unique_dir ++ "/" ++ pathName filename))
      (fun g hg => hacc g (List.mem_cons_of_mem _ hg))
    refine ⟨bytesFinal, fs', ?_, ?_⟩
    · simp only [stageLoop]
      rw [if_pos haccf, hb]
      exact heq.trans (by simp)
    · rw [hlen]
      simp only [List.length_append, List.length_cons, List.length_nil]
      omega

/-- A request with two accepted files sharing the stem "a". -/
def wReqDup : Request := { wReq with files := [("a.pdf", "AA"), ("a.png", "BB")] }

/-- Externals accepting both suffixes of the duplicate-stem request. -/
def wExtDup : Externals := { wExt with accepted := [".pdf", ".png"] }

/-- C10: when every upload is accepted and decodes, the engine receives one
batch entry per upload (duplicate stems included), while the 200 response
carries exactly one entry per distinct stem, whose bundle is the collection
computed for that stem (the value the last occurrence's pass writes). -/
theorem c10_duplicate_stems (ext : Externals) (config : List (String × String))
    (req : Request) (fs0 : Fs) (u0 : Nat)
    (hacc : ∀ f ∈ req.files,
      ext.accepted.contains (lowerStr (pathSuffix (pathName f.fst))) = true)
    (hok : ∀ c, ∃ b, ext.readFn c = .ok b) :
    (∀ args ∈ (parse_pdf ext config req fs0 u0).engineCalls,
      args.pdf_file_names = req.files.map (fun f => pathStem (pathName f.fst)) ∧
      args.pdf_bytes_list.length = req.files.length) ∧
    ((parse_pdf ext config req fs0 u0).response.status = 200 →
      ∃ results, (parse_pdf ext config req fs0 u0).response.results = some results ∧
        (results.map Prod.fst).Nodup ∧
        (∀ stem, stem ∈ results.map Prod.fst ↔
          stem ∈ req.files.map (fun f => pathStem (pathName f.fst))) ∧
        (∀ stem ∈ req.files.map (fun f => pathStem (pathName f.fst)),
          lookupKey stem results =
            some (collectStem ext.b64 (parse_pdf ext config req fs0 u0).fs
              (uniqueDirOf req u0) req.backend req.parse_method stem
              req.return_md req.return_middle_json req.return_model_output
              req.return_content_list req.return_images))) := by
  obtain ⟨bytesFinal, fs2, hs, hlen⟩ := stageLoop_all_ok ext.accepted ext.readFn
    (uniqueDirOf req u0) hok req.files [] [] (initialFs req u0 fs0) hacc
  rw [List.nil_append] at hs
  constructor
  · intro args hmem
    obtain ⟨names, bytesList, fs2x, heq, rfl⟩ :=
      engineCalls_eq ext config req fs0 u0 args hmem
    rw [hs] at heq
    injection heq with h1 h2 h3
    subst h1; subst h2; subst h3
    refine ⟨rfl, ?_⟩
    simpa using hlen
  · intro h200
    rcases Bool.eq_false_or_eq_true (kwargsCollide config) with hc | hc
    · rw [parse_pdf_collide_eq ext config req fs0 u0 _ bytesFinal fs2 hs hc] at h200
      norm_num [serverError] at h200
    · cases heng : ext.engine (mkEngineArgs req config (uniqueDirOf req u0)
          (req.files.map (fun f => pathStem (pathName f.fst))) bytesFinal) fs2 with
      | error e0 =>
        rw [parse_pdf_engineError_eq ext config req fs0 u0 _ bytesFinal fs2 e0
          hs hc heng] at h200
        norm_num [serverError] at h200
      | ok fs3 =>
        rw [parse_pdf_ok_eq ext config req fs0 u0 _ bytesFinal fs2 fs3 hs hc heng]
        refine ⟨_, rfl, ?_, ?_, ?_⟩
        · exact nodup_keys_collectLoop ext.b64 fs3 (uniqueDirOf req u0) req.backend
            req.parse_method req.return_md req.return_middle_json
            req.return_model_output req.return_content_list req.return_images
            _ [] (by simp)
        · intro stem
          rw [mem_keys_collectLoop]
          simp
        · intro stem hstem
          exact lookupKey_collectLoop_mem ext.b64 fs3 (uniqueDirOf req u0) req.backend
            req.parse_method req.return_md req.return_middle_json
            req.return_model_output req.return_content_list req.return_images
            _ [] stem hstem

theorem c10_duplicate_stems_witness :
    (mkEngineArgs wReqDup [] (uniqueDirOf wReqDup 0) ["a", "a"] ["AA", "BB"]).pdf_file_names =
      wReqDup.files.map (fun f => pathStem (pathName f.fst)) :=
  ((c10_duplicate_stems wExtDup [] wReqDup ⟨[], []⟩ 0 (by decide)
    (fun c => ⟨c, rfl⟩)).1
    (mkEngineArgs wReqDup [] (uniqueDirOf wReqDup 0) ["a", "a"] ["AA", "BB"])
    (by decide)).1

end FastApi
